import Mathlib

/-!
Shallow embedding of the tiny-dfr core (src/main.rs): the Button/Layer data
model, the synthetic key emission contract, the dirty-rect renderer, and the
touch-router state machine of the main event loop.

Modelling conventions:
* `f64` coordinates are embedded as `ℚ`; the float constants `0.09`, `0.91`,
  `0.15`, `0.85` are the corresponding rationals.
* Rust saturating float-to-integer casts (`as u32`, `as u16` on `f64`) are
  clamped floors; integer narrowing casts (`as u16` on `i32`) reduce mod 2^16.
* Rust panics (out-of-bounds slice indexing) are `Option.none`: step functions
  return `Option` and `none` marks a panic.
* `HashMap<slot, (layer, btn)>` is an association list with insert-replace
  semantics, matching `HashMap::insert`.
* The uinput side effects (`emit` calls) are collected as a list of `UEvent`.
* Cairo side effects in `FunctionLayer::draw` are collected as `PaintCmd`s.
-/

/-- Image carried by a button: a fixed text label or an svg resource path. -/
inductive ButtonImage where
  | text (label : String)
  | svg (path : String)
deriving DecidableEq

/-- The `Button` struct of main.rs: image, changed/active flags and the key
code (`action`, an input-linux `Key`) it emits. -/
structure Button where
  image : ButtonImage
  changed : Bool
  active : Bool
  action : Nat
deriving DecidableEq

/-- `Button::new_text`. -/
def Button.new_text (text : String) (action : Nat) : Button :=
  { action := action, active := false, changed := false, image := .text text }

/-- `Button::new_svg` (the svg loading itself is external; only the path is
kept). -/
def Button.new_svg (path : String) (action : Nat) : Button :=
  { action := action, active := false, changed := false, image := .svg path }

/-- One event written to the uinput handle by `emit`: a key event with a code
and a value, or a synchronization report. -/
inductive UEvent where
  | key (code : Nat) (value : Int)
  | syn
deriving DecidableEq

/-- `toggle_key`: emits one key event with the given value followed by one
synchronization report. -/
def toggle_key (code : Nat) (value : Int) : List UEvent :=
  [UEvent.key code value, UEvent.syn]

/-- `Button::set_active`: no-op when the state is unchanged, otherwise flips
`active`, sets `changed` and invokes `toggle_key` with `active as i32`.
Returns the updated button and the emitted uinput events. -/
def Button.set_active (b : Button) (active : Bool) : Button × List UEvent :=
  if b.active ≠ active then
    ({ b with active := active, changed := true },
      toggle_key b.action (if active then 1 else 0))
  else
    (b, [])

/-- The saturating `as u32` cast applied to an `f64` (here `ℚ`). -/
def f64toU32 (q : ℚ) : Nat := min 4294967295 (Int.toNat ⌊q⌋)

/-- The saturating `as u16` cast applied to an `f64` (here `ℚ`). -/
def f64toU16 (q : ℚ) : Nat := min 65535 (Int.toNat ⌊q⌋)

/-- `button_hit` from main.rs: exact hit test of position `(x, y)` against
button column `idx` out of `num` columns over drawable width `width` and
thickness `height`. `num - 1` and `num + 1` are u32 arithmetic, hence `Nat`. -/
def button_hit (num idx : Nat) (width height : Nat) (x y : ℚ) : Bool :=
  let button_width : ℚ := (width : ℚ) / ((num + 1 : Nat) : ℚ)
  let spacing_width : ℚ :=
    ((width : ℚ) - (num : ℚ) * button_width) / ((num - 1 : Nat) : ℚ)
  let left_edge : ℚ := (idx : ℚ) * (button_width + spacing_width)
  if x < left_edge ∨ x > left_edge + button_width then
    false
  else
    decide ((9 / 100 : ℚ) * (height : ℚ) < y ∧ y < (91 / 100 : ℚ) * (height : ℚ))

/-- `LayerType` from the config: `Function = 0`, `Special = 1` (`repr(usize)`). -/
inductive LayerType where
  | function
  | special
deriving DecidableEq

/-- The `as usize` value of a `LayerType`. -/
def LayerType.toIdx : LayerType → Nat
  | .function => 0
  | .special => 1

/-- The `ui` section of the config: which layer is primary / secondary. -/
structure UiConfig where
  primary_layer : LayerType
  secondary_layer : LayerType
deriving DecidableEq

/-- Key code of `Key::Fn` (input-linux), the layer-switch modifier. -/
def KEY_FN : Nat := 464

/-- Lookup in the contact-tracking map (`HashMap::get`). -/
def mapLookup (m : List (Nat × Nat × Nat)) (k : Nat) : Option (Nat × Nat) :=
  match m with
  | [] => none
  | (k', v) :: rest => if k' = k then some v else mapLookup rest k

/-- Insert-or-replace in the contact-tracking map (`HashMap::insert`). -/
def mapInsert (m : List (Nat × Nat × Nat)) (k : Nat) (v : Nat × Nat) :
    List (Nat × Nat × Nat) :=
  match m with
  | [] => [(k, v)]
  | (k', v') :: rest =>
    if k' = k then (k, v) :: rest else (k', v') :: mapInsert rest k v

/-- The mutable state owned by the main loop: the recognized digitizer device
(if any), the active layer index, both layers' buttons, the contact-tracking
map `touches`, and the pending-full-redraw flag. -/
structure SysState where
  digitizer : Option Nat
  activeLayer : Nat
  layers : List (List Button)
  touches : List (Nat × Nat × Nat)
  needsRedraw : Bool
deriving DecidableEq

/-- Apply `set_active` to `layers[li].buttons[bi]` as the touch branches do;
`none` models the Rust index panic when either index is out of bounds. -/
def setActiveAt (layers : List (List Button)) (li bi : Nat) (v : Bool) :
    Option (List (List Button) × List UEvent) :=
  match layers[li]? with
  | none => none
  | some row =>
    match row[bi]? with
    | none => none
    | some b =>
      let r := b.set_active v
      some (layers.set li (row.set bi r.1), r.2)

/-- Decides whether a haystack starts with a needle (character lists). -/
def leadsWith : List Char → List Char → Bool
  | [], _ => true
  | _ :: _, [] => false
  | a :: as, b :: bs => a = b && leadsWith as bs

/-- Decides substring containment, as `str::contains` does. -/
def containsSub (hay needle : List Char) : Bool :=
  match hay with
  | [] => needle.isEmpty
  | _ :: t => leadsWith needle hay || containsSub t needle

/-- One normalized input event as consumed by the main loop's match, tagged
with its originating device (a device id standing for `event.device()`). -/
inductive InEvent where
  | deviceAdded (dev : Nat) (name : String)
  | keyboardKey (dev : Nat) (code : Nat) (pressed : Bool)
  | touchDown (dev : Nat) (slot : Nat) (x y : ℚ)
  | touchMotion (dev : Nat) (slot : Nat) (x y : ℚ)
  | touchUp (dev : Nat) (slot : Nat)

/-- One iteration of the event match in main.rs, processing a single event:
device recognition, Fn layer switching, and the touch router. `width` and
`height` are the drm mode dimensions (long axis resp. thickness), `bl` the
current backlight level. `none` models a panic. -/
def stepEvent (cfg : UiConfig) (width height bl : Nat) (s : SysState)
    (ev : InEvent) : Option (SysState × List UEvent) :=
  match ev with
  | .deviceAdded dev name =>
    if containsSub name.toList " Touch Bar".toList then
      some ({ s with digitizer := some dev }, [])
    else
      some (s, [])
  | .keyboardKey _ code pressed =>
    if code = KEY_FN then
      let new_layer :=
        (if pressed then cfg.secondary_layer else cfg.primary_layer).toIdx
      if s.activeLayer ≠ new_layer then
        some ({ s with activeLayer := new_layer, needsRedraw := true }, [])
      else
        some (s, [])
    else
      some (s, [])
  | .touchDown dev slot x y =>
    if some dev ≠ s.digitizer ∨ bl = 0 then
      some (s, [])
    else
      match s.layers[s.activeLayer]? with
      | none => none
      | some row =>
        let btn := f64toU32 (x / ((width : ℚ) / (row.length : ℚ)))
        if button_hit row.length btn width height x y then
          match setActiveAt s.layers s.activeLayer btn true with
          | none => none
          | some r =>
            some ({ s with
                touches := mapInsert s.touches slot (s.activeLayer, btn),
                layers := r.1 }, r.2)
        else
          some (s, [])
  | .touchMotion dev slot x y =>
    if some dev ≠ s.digitizer ∨ bl = 0 then
      some (s, [])
    else
      match mapLookup s.touches slot with
      | none => some (s, [])
      | some (layer, btn) =>
        match s.layers[layer]? with
        | none => none
        | some row =>
          let hit := button_hit row.length btn width height x y
          match setActiveAt s.layers layer btn hit with
          | none => none
          | some r => some ({ s with layers := r.1 }, r.2)
  | .touchUp dev slot =>
    if some dev ≠ s.digitizer ∨ bl = 0 then
      some (s, [])
    else
      match mapLookup s.touches slot with
      | none => some (s, [])
      | some (layer, btn) =>
        match setActiveAt s.layers layer btn false with
        | none => none
        | some r => some ({ s with layers := r.1 }, r.2)

/-- Run a list of events through `stepEvent`, threading the state and
concatenating the emitted uinput events. -/
def runEvents (cfg : UiConfig) (width height bl : Nat) (s : SysState) :
    List InEvent → Option (SysState × List UEvent)
  | [] => some (s, [])
  | e :: es =>
    match stepEvent cfg width height bl s e with
    | none => none
    | some r =>
      match runEvents cfg width height bl r.1 es with
      | none => none
      | some r' => some (r'.1, r.2 ++ r'.2)

/-- A dirty rectangle handed to the compositor (`drm ClipRect`, u16 fields). -/
structure ClipRect where
  x1 : Nat
  y1 : Nat
  x2 : Nat
  y2 : Nat
deriving DecidableEq

/-- One cairo side effect of `FunctionLayer::draw`, abstracted: clearing the
whole canvas, erasing button `i`'s background region, filling button `i`'s
rounded rectangle in the color keyed by `active`, or drawing its glyph. -/
inductive PaintCmd where
  | clearAll
  | eraseBg (i : Nat)
  | fillRounded (i : Nat) (active : Bool)
  | glyph (i : Nat)
deriving DecidableEq

/-- The `ClipRect` that `draw` pushes for button `i`: `height`/`width` are the
thickness resp. long axis, `n` the button count, with `radius = 8`,
`bot = 0.15 * height`, `top = 0.85 * height`. -/
def buttonClip (height width n i : Nat) : ClipRect :=
  let button_width : ℚ := (width : ℚ) / ((n + 1 : Nat) : ℚ)
  let spacing_width : ℚ :=
    ((width : ℚ) - (n : ℚ) * button_width) / ((n - 1 : Nat) : ℚ)
  let left_edge : ℚ := (i : ℚ) * (button_width + spacing_width)
  let bot : ℚ := (height : ℚ) * (15 / 100 : ℚ)
  let top : ℚ := (height : ℚ) * (85 / 100 : ℚ)
  { x1 := height % 65536 - f64toU16 top - 8
  , y1 := f64toU16 left_edge
  , x2 := height % 65536 - f64toU16 bot + 8
  , y2 := f64toU16 left_edge + f64toU16 button_width }

/-- The full-canvas `ClipRect` returned by a complete redraw. -/
def fullRect (height width : Nat) : ClipRect :=
  { x1 := 0, y1 := 0, x2 := height % 65536, y2 := width % 65536 }

/-- Result of `FunctionLayer::draw`: the updated buttons, the returned dirty
rectangles and the abstracted cairo paint commands. -/
structure DrawResult where
  buttons : List Button
  rects : List ClipRect
  cmds : List PaintCmd
deriving DecidableEq

/-- The button loop of `FunctionLayer::draw`, starting at index `i`; `n` is
the total button count of the layer. Buttons with `changed = false` are
skipped unless `complete` is set; a repainted button is erased first in
incremental mode, then filled and its glyph drawn, its `changed` flag
cleared, and its clip rectangle pushed. -/
def drawButtons (height width n : Nat) (complete : Bool) :
    Nat → List Button → DrawResult
  | _, [] => ⟨[], [], []⟩
  | i, b :: bs =>
    let rest := drawButtons height width n complete (i + 1) bs
    if !b.changed && !complete then
      ⟨b :: rest.buttons, rest.rects, rest.cmds⟩
    else
      ⟨{ b with changed := false } :: rest.buttons,
        buttonClip height width n i :: rest.rects,
        (if !complete then [PaintCmd.eraseBg i] else []) ++
          [PaintCmd.fillRounded i b.active, PaintCmd.glyph i] ++ rest.cmds⟩

/-- `FunctionLayer::draw`: on a complete redraw the canvas is cleared first
and the single full-canvas rectangle is returned; otherwise the per-button
rectangles collected by the loop are returned. -/
def drawLayer (height width : Nat) (buttons : List Button) (complete : Bool) :
    DrawResult :=
  let r := drawButtons height width buttons.length complete 0 buttons
  if complete then
    ⟨r.buttons, [fullRect height width],
      PaintCmd.clearAll :: r.cmds⟩
  else
    r

/-- The redraw step at the top of each main-loop iteration: draw the active
layer when a complete redraw is pending or some button changed, clear the
pending flag, and hand the dirty rectangles to the compositor. `none` models
the index panic when `activeLayer` is out of bounds. -/
def frameStep (width height : Nat) (s : SysState) :
    Option (SysState × List ClipRect) :=
  match s.layers[s.activeLayer]? with
  | none => none
  | some row =>
    if s.needsRedraw || row.any (fun b => b.changed) then
      let r := drawLayer height width row s.needsRedraw
      some ({ s with
          layers := s.layers.set s.activeLayer r.buttons,
          needsRedraw := false }, r.rects)
    else
      some (s, [])

/-- The two layers built in `main`: the F-key layer and the media layer, with
the input-linux key codes of their actions. -/
def initLayers : List (List Button) :=
  [ [ Button.new_text "F1" 59
    , Button.new_text "F2" 60
    , Button.new_text "F3" 61
    , Button.new_text "F4" 62
    , Button.new_text "F5" 63
    , Button.new_text "F6" 64
    , Button.new_text "F7" 65
    , Button.new_text "F8" 66
    , Button.new_text "F9" 67
    , Button.new_text "F10" 68
    , Button.new_text "F11" 87
    , Button.new_text "F12" 88 ]
  , [ Button.new_svg "brightness_low" 224
    , Button.new_svg "brightness_high" 225
    , Button.new_svg "mic_off" 248
    , Button.new_svg "search" 217
    , Button.new_svg "backlight_low" 229
    , Button.new_svg "backlight_high" 230
    , Button.new_svg "fast_rewind" 165
    , Button.new_svg "play_pause" 164
    , Button.new_svg "fast_forward" 163
    , Button.new_svg "volume_off" 113
    , Button.new_svg "volume_down" 114
    , Button.new_svg "volume_up" 115 ] ]

/-- A default configuration: function keys primary, media keys secondary. -/
def cfg0 : UiConfig := ⟨.function, .special⟩

/-- The loop state right after startup and recognition of the Touch Bar
digitizer as device 7, with no pending redraw. -/
def s0 : SysState :=
  { digitizer := some 7
  , activeLayer := 0
  , layers := initLayers
  , touches := []
  , needsRedraw := false }

/-- A tracked state: like `s0` but with contact 0 bound to (layer 0, button 0),
as the down handler leaves it when the button was not activated afterwards. -/
def sTracked : SysState := { s0 with touches := [(0, 0, 0)] }

/-- The hit test as the specification words it: the horizontal coordinate
lies within [left_edge, left_edge + width/(num+1)] of column `idx`, where
left_edge = idx * (button_width + gap) and gap = (width - num *
button_width)/(num - 1), and the vertical coordinate lies strictly between
9% and 91% of the thickness. Stated over ℚ with true subtraction; compared
against the source's `button_hit`. -/
def hitSpec (num idx width height : Nat) (x y : ℚ) : Prop :=
  let button_width : ℚ := (width : ℚ) / ((num : ℚ) + 1)
  let gap : ℚ := ((width : ℚ) - (num : ℚ) * button_width) / ((num : ℚ) - 1)
  let left_edge : ℚ := (idx : ℚ) * (button_width + gap)
  (left_edge ≤ x ∧ x ≤ left_edge + button_width) ∧
  ((9 / 100 : ℚ) * (height : ℚ) < y ∧ y < (91 / 100 : ℚ) * (height : ℚ))

/-- The structural invariant of the loop state in main: exactly two layers of
twelve buttons each, the active layer index in range, and every tracked
binding pointing at an existing layer and button. -/
def StateOK (s : SysState) : Prop :=
  s.layers.length = 2 ∧ s.activeLayer < 2 ∧
  (∀ row ∈ s.layers, row.length = 12) ∧
  (∀ e ∈ s.touches, e.2.1 < 2 ∧ e.2.2 < 12)

/-- Range condition on an incoming event: transformed touch-down coordinates
lie within the drawable width, as `x_transformed(width)` guarantees. -/
def EventOK (width : Nat) : InEvent → Prop
  | .touchDown _ _ x _ => 0 ≤ x ∧ x ≤ (width : ℚ)
  | _ => True

theorem set_active_of_eq (b : Button) (v : Bool) (h : b.active = v) :
    b.set_active v = (b, []) := by
  simp [Button.set_active, h]

theorem set_active_of_ne (b : Button) (v : Bool) (h : b.active ≠ v) :
    b.set_active v = ({ b with active := v, changed := true },
      [UEvent.key b.action (if v then 1 else 0), UEvent.syn]) := by
  simp [Button.set_active, h, toggle_key]

theorem setActiveAt_some (layers : List (List Button)) (li bi : Nat) (v : Bool)
    (row : List Button) (b : Button)
    (hrow : layers[li]? = some row) (hb : row[bi]? = some b) :
    setActiveAt layers li bi v =
      some (layers.set li (row.set bi (b.set_active v).1), (b.set_active v).2) := by
  simp [setActiveAt, hrow, hb]

/-- C1: `Button.set_active(new_state)` is a no-op (no field mutation, no key
event) when `new_state` equals the current `active` flag; otherwise it flips
`active`, sets `changed`, and emits exactly one key event carrying the new
state followed by exactly one synchronization report; consequently two
consecutive calls with the same value emit at most one key/sync pair. -/
theorem set_active_transition_contract (b : Button) (v : Bool) :
    (b.active = v → b.set_active v = (b, [])) ∧
    (b.active ≠ v → b.set_active v = ({ b with active := v, changed := true },
      [UEvent.key b.action (if v then 1 else 0), UEvent.syn])) ∧
    ((b.set_active v).1.set_active v = ((b.set_active v).1, []) ∧
      ((b.set_active v).2 ++ ((b.set_active v).1.set_active v).2).length ≤ 2) := by
  refine ⟨set_active_of_eq b v, set_active_of_ne b v, ?_, ?_⟩ <;>
    cases h : decide (b.active = v) <;>
      simp_all [Button.set_active, toggle_key]

theorem set_active_transition_contract_witness :
    (Button.new_text "F1" 59).active ≠ true ∧
    (Button.new_text "F1" 59).set_active true =
      ({ Button.new_text "F1" 59 with active := true, changed := true },
        [UEvent.key (Button.new_text "F1" 59).action 1, UEvent.syn]) :=
  ⟨by decide, (set_active_transition_contract (Button.new_text "F1" 59) true).2.1 (by decide)⟩

/-- C2: processing a contact's up-event does call `set_active(false)` on the
bound button (key-up and sync are emitted and the button goes inactive), but
the handler never removes the entry from the contact-tracking map: after a
down at (100, 32) and the matching up, the map still binds contact 0 to
(layer 0, button 0). -/
theorem up_event_keeps_tracking_entry :
    (runEvents cfg0 2008 64 1 s0
        [InEvent.touchDown 7 0 100 32, InEvent.touchUp 7 0]).map
      (fun p => (mapLookup p.1.touches 0,
        (p.1.layers.getD 0 []).map (fun b => b.active), p.2))
    = some (some (0, 0),
        [false, false, false, false, false, false,
          false, false, false, false, false, false],
        [UEvent.key 59 1, UEvent.syn, UEvent.key 59 0, UEvent.syn]) :=
  of_decide_eq_true (by with_unfolding_all rfl)

theorem drawButtons_incremental (height width n : Nat) (bs : List Button)
    (i : Nat) :
    drawButtons height width n false i bs =
      ⟨bs.map (fun b => if b.changed then { b with changed := false } else b),
        ((bs.enumFrom i).filter (fun p => p.2.changed)).map
          (fun p => buttonClip height width n p.1),
        (((bs.enumFrom i).filter (fun p => p.2.changed)).map
          (fun p => [PaintCmd.eraseBg p.1, PaintCmd.fillRounded p.1 p.2.active,
            PaintCmd.glyph p.1])).flatten⟩ := by
  induction bs generalizing i with
  | nil => simp [drawButtons]
  | cons b bs ih =>
    cases hb : b.changed <;>
      simp [drawButtons, hb, ih (i + 1), List.enumFrom, List.filter]

/-- C7: an incremental (non-full) redraw returns the buttons with exactly the
changed ones repainted and their `changed` flags cleared (unchanged buttons
come back entirely unmodified and are skipped), appends exactly one dirty
rectangle per changed button in order, and its paint commands erase and
repaint exactly the changed buttons' background rectangles and glyphs. -/
theorem incremental_redraw_exact (height width : Nat) (bs : List Button) :
    drawLayer height width bs false =
      ⟨bs.map (fun b => if b.changed then { b with changed := false } else b),
        (bs.enum.filter (fun p => p.2.changed)).map
          (fun p => buttonClip height width bs.length p.1),
        ((bs.enum.filter (fun p => p.2.changed)).map
          (fun p => [PaintCmd.eraseBg p.1, PaintCmd.fillRounded p.1 p.2.active,
            PaintCmd.glyph p.1])).flatten⟩ := by
  simpa [drawLayer, List.enum] using
    drawButtons_incremental height width bs.length bs 0

/-- C8: while the backlight is zero or the event's device is not the
recognized digitizer, every touch event leaves the whole state unchanged and
emits nothing. -/
theorem touch_gating (cfg : UiConfig) (width height bl dev : Nat)
    (s : SysState) (hg : some dev ≠ s.digitizer ∨ bl = 0) :
    (∀ slot : Nat, ∀ x y : ℚ,
      stepEvent cfg width height bl s (.touchDown dev slot x y) = some (s, [])) ∧
    (∀ slot : Nat, ∀ x y : ℚ,
      stepEvent cfg width height bl s (.touchMotion dev slot x y) = some (s, [])) ∧
    (∀ slot : Nat,
      stepEvent cfg width height bl s (.touchUp dev slot) = some (s, [])) := by
  refine ⟨fun slot x y => ?_, fun slot x y => ?_, fun slot => ?_⟩ <;>
    · simp only [stepEvent]
      rw [if_pos hg]

theorem touch_gating_witness :
    (some 3 ≠ s0.digitizer ∨ (1 : Nat) = 0) ∧
    stepEvent cfg0 2008 64 1 s0 (.touchDown 3 0 100 32) = some (s0, []) := by
  have hg : some 3 ≠ s0.digitizer ∨ (1 : Nat) = 0 := Or.inl (by decide)
  exact ⟨hg, (touch_gating cfg0 2008 64 1 3 s0 hg).1 0 100 32⟩

theorem keys_of_mapInsert (m : List (Nat × Nat × Nat)) (k a : Nat) (v : Nat × Nat)
    (h : a ∈ (mapInsert m k v).map Prod.fst) : a = k ∨ a ∈ m.map Prod.fst := by
  induction m with
  | nil =>
    simp [mapInsert] at h
    exact Or.inl h
  | cons e rest ih =>
    rcases e with ⟨k', v'⟩
    simp only [mapInsert] at h
    simp only [List.map_cons, List.mem_cons]
    by_cases he : k' = k
    · rw [if_pos he] at h
      simp only [List.map_cons, List.mem_cons] at h
      tauto
    · rw [if_neg he] at h
      simp only [List.map_cons, List.mem_cons] at h
      rcases h with h | h
      · tauto
      · rcases ih h with h1 | h1 <;> tauto

/-- C9 (counterexample): with button 0 already pressed by contact 0, a second
contact (slot 1) going down on the same button's region does create a second
tracking-map binding to that same button: the map ends with entries
(0 ↦ (0,0)) and (1 ↦ (0,0)), refuting "a single button is referenced by at
most one live contact". Only one key/sync pair was emitted, by the first
contact. -/
theorem second_contact_creates_second_binding :
    (runEvents cfg0 2008 64 1 s0
        [InEvent.touchDown 7 0 100 32, InEvent.touchDown 7 1 100 32]).map
      (fun p => (p.1.touches, p.2))
    = some ([(0, 0, 0), (1, 0, 0)], [UEvent.key 59 1, UEvent.syn]) :=
  of_decide_eq_true (by with_unfolding_all rfl)

/-- C9 (amended): the contact-tracking map does keep at most one entry per
contact id (insertion replaces an existing binding for the same id, so
distinctness of tracked ids is preserved), and a second contact landing on an
already-active button does not re-trigger its key event: `set_active(true)`
on an already-active button emits nothing and mutates nothing. -/
theorem tracking_map_one_entry_per_id :
    (∀ (m : List (Nat × Nat × Nat)) (k : Nat) (v : Nat × Nat),
      (m.map Prod.fst).Nodup → ((mapInsert m k v).map Prod.fst).Nodup) ∧
    (∀ b : Button, b.active = true → b.set_active true = (b, [])) := by
  constructor
  · intro m k v h
    induction m with
    | nil => simp [mapInsert]
    | cons e rest ih =>
      rcases e with ⟨k', v'⟩
      simp only [mapInsert]
      by_cases he : k' = k
      · rw [if_pos he]
        subst he
        simpa using h
      · rw [if_neg he]
        simp only [List.map_cons, List.nodup_cons] at h ⊢
        refine ⟨fun hmem => ?_, ih h.2⟩
        rcases keys_of_mapInsert rest k k' v hmem with h1 | h1
        · exact he h1
        · exact h.1 h1
  · intro b h
    exact set_active_of_eq b true h

theorem tracking_map_one_entry_per_id_witness :
    (([(0, 0, 0)] : List (Nat × Nat × Nat)).map Prod.fst).Nodup ∧
    ((mapInsert [(0, 0, 0)] 1 (0, 0)).map Prod.fst).Nodup ∧
    (Button.mk (ButtonImage.text "F1") true true 59).active = true ∧
    (Button.mk (ButtonImage.text "F1") true true 59).set_active true =
      (Button.mk (ButtonImage.text "F1") true true 59, []) :=
  ⟨by decide, tracking_map_one_entry_per_id.1 [(0, 0, 0)] 1 (0, 0) (by decide),
    by decide, tracking_map_one_entry_per_id.2 _ (by decide)⟩

/-- C4: a motion event for a tracked contact re-runs the hit test against the
originally bound (layer, button) pair only, calls `set_active` with the
result on that same button, and never modifies the tracking map: the binding
recorded at down persists unchanged. -/
theorem motion_preserves_binding (cfg : UiConfig)
    (width height bl dev slot : Nat) (x y : ℚ) (s : SysState)
    (li bi : Nat) (row : List Button) (b : Button)
    (hdev : some dev = s.digitizer) (hbl : bl ≠ 0)
    (hlk : mapLookup s.touches slot = some (li, bi))
    (hrow : s.layers[li]? = some row) (hb : row[bi]? = some b) :
    stepEvent cfg width height bl s (.touchMotion dev slot x y)
      = some ({ s with
          layers := s.layers.set li
            (row.set bi (b.set_active (button_hit row.length bi width height x y)).1) },
          (b.set_active (button_hit row.length bi width height x y)).2) ∧
    (stepEvent cfg width height bl s (.touchMotion dev slot x y)).map
        (fun p => p.1.touches) = some s.touches := by
  have hg : ¬(some dev ≠ s.digitizer ∨ bl = 0) := by
    simp [← hdev, hbl]
  have hstep : stepEvent cfg width height bl s (.touchMotion dev slot x y)
      = some ({ s with
          layers := s.layers.set li
            (row.set bi (b.set_active (button_hit row.length bi width height x y)).1) },
          (b.set_active (button_hit row.length bi width height x y)).2) := by
    simp only [stepEvent]
    rw [if_neg hg]
    simp only [hlk, hrow, setActiveAt_some s.layers li bi _ row b hrow hb]
  exact ⟨hstep, by rw [hstep]; rfl⟩

theorem motion_preserves_binding_witness :
    stepEvent cfg0 2008 64 1 sTracked (.touchMotion 7 0 2000 32)
      = some ({ sTracked with
          layers := sTracked.layers.set 0
            ((initLayers.getD 0 []).set 0
              ((Button.new_text "F1" 59).set_active
                (button_hit (initLayers.getD 0 []).length 0 2008 64 2000 32)).1) },
          ((Button.new_text "F1" 59).set_active
            (button_hit (initLayers.getD 0 []).length 0 2008 64 2000 32)).2) ∧
    (stepEvent cfg0 2008 64 1 sTracked (.touchMotion 7 0 2000 32)).map
        (fun p => p.1.touches) = some sTracked.touches :=
  motion_preserves_binding cfg0 2008 64 1 7 0 2000 32 sTracked 0 0
    (initLayers.getD 0 []) (Button.new_text "F1" 59)
    (by decide) (by decide) (by decide) (by decide) (by decide)

/-- C5: a down-event whose hit test fails does create no tracking entry, but
later events bearing that contact id are not always no-ops: because up-events
never remove entries, a recycled slot keeps its stale binding across a missed
down. Trace at W=2008, H=64, backlight 1: down(slot 0, 100, 32) hits button 0
and emits key-down; up(slot 0) emits key-up but keeps the entry; after three
events the map still holds (0 ↦ (0,0)), every button is inactive, and a new
down(slot 0, 160, 32) has missed (x=160 lies in the gap past column 0, no
state change, no event). The fourth event, motion(slot 0, 100, 32) — borne by
the contact whose down missed — then finds the stale entry, re-activates
button 0 and emits another key/sync pair, contradicting the claimed silent
ignoring. -/
theorem missed_down_then_motion_reactivates_stale_binding :
    (runEvents cfg0 2008 64 1 s0
        [InEvent.touchDown 7 0 100 32, InEvent.touchUp 7 0,
          InEvent.touchDown 7 0 160 32]).map
      (fun p => (p.1.touches,
        (p.1.layers.getD 0 []).map (fun b => b.active), p.2))
    = some ([(0, 0, 0)],
        [false, false, false, false, false, false,
          false, false, false, false, false, false],
        [UEvent.key 59 1, UEvent.syn, UEvent.key 59 0, UEvent.syn]) ∧
    (runEvents cfg0 2008 64 1 s0
        [InEvent.touchDown 7 0 100 32, InEvent.touchUp 7 0,
          InEvent.touchDown 7 0 160 32, InEvent.touchMotion 7 0 100 32]).map
      (fun p => (p.1.touches,
        (p.1.layers.getD 0 []).map (fun b => b.active), p.2))
    = some ([(0, 0, 0)],
        [true, false, false, false, false, false,
          false, false, false, false, false, false],
        [UEvent.key 59 1, UEvent.syn, UEvent.key 59 0, UEvent.syn,
          UEvent.key 59 1, UEvent.syn]) :=
  ⟨of_decide_eq_true (by with_unfolding_all rfl),
    of_decide_eq_true (by with_unfolding_all rfl)⟩

theorem drawLayer_complete_rects (height width : Nat) (bs : List Button) :
    (drawLayer height width bs true).rects = [fullRect height width] := by
  simp [drawLayer]

/-- C6: an Fn key press makes the configured secondary layer active and an Fn
release reverts to the primary layer; the pending-redraw flag is set, and the
next frame produces the single full-canvas dirty rectangle, exactly when the
switch changed the active layer index. When the target equals the current
layer (in particular when primary and secondary name the same layer) the
event changes nothing and no redraw is caused. -/
theorem fn_layer_switch_redraw (cfg : UiConfig) (width height bl dev : Nat)
    (s : SysState) (pressed : Bool) (target : Nat)
    (htarget : target =
      (if pressed then cfg.secondary_layer else cfg.primary_layer).toIdx) :
    (s.activeLayer = target →
      stepEvent cfg width height bl s (.keyboardKey dev KEY_FN pressed) = some (s, []) ∧
      (∀ row, s.layers[s.activeLayer]? = some row → s.needsRedraw = false →
        row.any (fun b => b.changed) = false →
        frameStep width height s = some (s, []))) ∧
    (s.activeLayer ≠ target →
      stepEvent cfg width height bl s (.keyboardKey dev KEY_FN pressed)
        = some ({ s with activeLayer := target, needsRedraw := true }, []) ∧
      (∀ row2, s.layers[target]? = some row2 →
        (frameStep width height
            { s with activeLayer := target, needsRedraw := true }).map
          (fun p => p.2) = some [fullRect height width])) := by
  constructor
  · intro heq
    constructor
    · simp only [stepEvent, KEY_FN, if_true]
      rw [← htarget, if_neg (by simp [heq])]
    · intro row hrow hnr hch
      simp only [frameStep, hrow, hnr, hch]
      simp
  · intro hne
    constructor
    · simp only [stepEvent, KEY_FN, if_true]
      rw [← htarget, if_pos hne]
    · intro row2 hrow2
      simp [frameStep, hrow2, drawLayer_complete_rects]

theorem fn_layer_switch_redraw_witness :
    s0.activeLayer ≠ 1 ∧
    stepEvent cfg0 2008 64 1 s0 (.keyboardKey 3 KEY_FN true)
      = some ({ s0 with activeLayer := 1, needsRedraw := true }, []) ∧
    (frameStep 2008 64 { s0 with activeLayer := 1, needsRedraw := true }).map
      (fun p => p.2) = some [fullRect 64 2008] := by
  have h := (fn_layer_switch_redraw cfg0 2008 64 1 3 s0 true 1 (by decide)).2
    (by decide)
  exact ⟨by decide, h.1, h.2 (initLayers.getD 1 []) (by decide)⟩

theorem button_pitch_gt (num : Nat) (W : ℚ) (hnum : 2 ≤ num) (hW : 0 < W) :
    W < (num : ℚ) * (W / ((num : ℚ) + 1) +
      (W - (num : ℚ) * (W / ((num : ℚ) + 1))) / ((num : ℚ) - 1)) := by
  have hn : (2 : ℚ) ≤ (num : ℚ) := by exact_mod_cast hnum
  have hp1 : (0 : ℚ) < (num : ℚ) + 1 := by linarith
  have hp2 : (0 : ℚ) < (num : ℚ) - 1 := by linarith
  have key : (num : ℚ) * (W / ((num : ℚ) + 1) +
      (W - (num : ℚ) * (W / ((num : ℚ) + 1))) / ((num : ℚ) - 1))
      = W * (num : ℚ) ^ 2 / (((num : ℚ) + 1) * ((num : ℚ) - 1)) := by
    field_simp
    ring
  rw [key, lt_div_iff₀ (by positivity)]
  nlinarith

theorem button_hit_iff_hitSpec (num idx width height : Nat) (x y : ℚ)
    (h1n : 1 ≤ num) :
    button_hit num idx width height x y = true ↔
      hitSpec num idx width height x y := by
  have h1 : ((num + 1 : Nat) : ℚ) = (num : ℚ) + 1 := by push_cast; ring
  have h2 : ((num - 1 : Nat) : ℚ) = (num : ℚ) - 1 := by push_cast [h1n]; ring
  simp only [button_hit, hitSpec, h1, h2]
  split_ifs with h
  · simp only [false_iff]
    intro hs
    rcases h with h | h
    · exact absurd hs.1.1 (not_le.2 h)
    · exact absurd hs.1.2 (not_le.2 h)
  · push_neg at h
    simp only [decide_eq_true_eq]
    constructor
    · intro hy
      exact ⟨h, hy⟩
    · intro hs
      exact hs.2

theorem button_hit_lt (num idx width height : Nat) (x y : ℚ)
    (hnum : 2 ≤ num) (hW : 0 < width) (hx : x ≤ (width : ℚ))
    (hhit : button_hit num idx width height x y = true) : idx < num := by
  have h1n : 1 ≤ num := le_trans (by norm_num) hnum
  have hspec := (button_hit_iff_hitSpec num idx width height x y h1n).1 hhit
  simp only [hitSpec] at hspec
  by_contra hge
  push_neg at hge
  have hW' : (0 : ℚ) < (width : ℚ) := by exact_mod_cast hW
  have hkey := button_pitch_gt num (width : ℚ) hnum hW'
  have hidx : (num : ℚ) ≤ (idx : ℚ) := by exact_mod_cast hge
  have hcpos : 0 < (width : ℚ) / ((num : ℚ) + 1) +
      ((width : ℚ) - (num : ℚ) * ((width : ℚ) / ((num : ℚ) + 1))) / ((num : ℚ) - 1) := by
    by_contra hc0
    push_neg at hc0
    have hnn : (0 : ℚ) ≤ (num : ℚ) := by positivity
    nlinarith
  have hmono := mul_le_mul_of_nonneg_right hidx (le_of_lt hcpos)
  have hle := hspec.1.1
  linarith

theorem mapLookup_mem (m : List (Nat × Nat × Nat)) (k : Nat) (v : Nat × Nat)
    (h : mapLookup m k = some v) : (k, v) ∈ m := by
  induction m with
  | nil => simp [mapLookup] at h
  | cons e rest ih =>
    rcases e with ⟨k', v'⟩
    simp only [mapLookup] at h
    by_cases he : k' = k
    · rw [if_pos he] at h
      subst he
      simp at h
      simp [h]
    · rw [if_neg he] at h
      exact List.mem_cons_of_mem _ (ih h)

theorem mem_mapInsert (m : List (Nat × Nat × Nat)) (k : Nat)
    (v : Nat × Nat) (e : Nat × Nat × Nat) (h : e ∈ mapInsert m k v) :
    e = (k, v) ∨ e ∈ m := by
  induction m with
  | nil =>
    simp [mapInsert] at h
    exact Or.inl h
  | cons f rest ih =>
    rcases f with ⟨k', v'⟩
    simp only [mapInsert] at h
    simp only [List.mem_cons]
    by_cases he : k' = k
    · rw [if_pos he] at h
      simp only [List.mem_cons] at h
      tauto
    · rw [if_neg he] at h
      simp only [List.mem_cons] at h
      rcases h with h | h
      · tauto
      · rcases ih h with h1 | h1 <;> tauto

/-- C3: on a gated-in contact-down at (x, y), the candidate column is the
floor of x divided by the uniform pitch width/num; the exact hit test equals
the spec's bounds check (horizontal interval of the candidate column, and y
strictly between 9% and 91% of the thickness); a tracking entry is inserted
and `set_active(true)` invoked on the hit button exactly when that test
passes, and nothing at all happens when it fails. -/
theorem down_event_hit_test_characterization (cfg : UiConfig)
    (width height bl dev slot : Nat) (x y : ℚ) (s : SysState)
    (row : List Button) (btn : Nat)
    (hdev : some dev = s.digitizer) (hbl : bl ≠ 0)
    (hrow : s.layers[s.activeLayer]? = some row)
    (hN : 2 ≤ row.length) (hN32 : row.length ≤ 4294967295)
    (hW : 0 < width) (hx0 : 0 ≤ x) (hxW : x ≤ (width : ℚ))
    (hbtn : btn = f64toU32 (x / ((width : ℚ) / (row.length : ℚ)))) :
    ((btn : ℤ) = ⌊x / ((width : ℚ) / (row.length : ℚ))⌋) ∧
    (∀ idx : Nat, button_hit row.length idx width height x y = true ↔
      hitSpec row.length idx width height x y) ∧
    (button_hit row.length btn width height x y = false →
      stepEvent cfg width height bl s (.touchDown dev slot x y) = some (s, [])) ∧
    (button_hit row.length btn width height x y = true →
      ∃ b, row[btn]? = some b ∧
        stepEvent cfg width height bl s (.touchDown dev slot x y)
          = some ({ s with
              touches := mapInsert s.touches slot (s.activeLayer, btn),
              layers := s.layers.set s.activeLayer (row.set btn (b.set_active true).1) },
            (b.set_active true).2)) := by
  have hg : ¬(some dev ≠ s.digitizer ∨ bl = 0) := by
    simp [← hdev, hbl]
  have hWq : (0 : ℚ) < (width : ℚ) := by exact_mod_cast hW
  have hNq : (0 : ℚ) < (row.length : ℚ) := by
    have : 0 < row.length := lt_of_lt_of_le (by norm_num) hN
    exact_mod_cast this
  have hpitch : (0 : ℚ) < (width : ℚ) / (row.length : ℚ) := div_pos hWq hNq
  constructor
  · -- the candidate index is the floor of x over the pitch
    have hq0 : 0 ≤ x / ((width : ℚ) / (row.length : ℚ)) :=
      div_nonneg hx0 (le_of_lt hpitch)
    have hqle : x / ((width : ℚ) / (row.length : ℚ)) ≤ (row.length : ℚ) := by
      rw [div_le_iff₀ hpitch]
      have : (row.length : ℚ) * ((width : ℚ) / (row.length : ℚ)) = (width : ℚ) := by
        field_simp
      rw [this]
      exact hxW
    have hfl0 : 0 ≤ ⌊x / ((width : ℚ) / (row.length : ℚ))⌋ := Int.floor_nonneg.2 hq0
    have hfle : ⌊x / ((width : ℚ) / (row.length : ℚ))⌋ ≤ (row.length : ℤ) := by
      have := Int.floor_le_floor hqle
      rwa [Int.floor_natCast] at this
    have htn : Int.toNat ⌊x / ((width : ℚ) / (row.length : ℚ))⌋ ≤ 4294967295 := by
      omega
    rw [hbtn, f64toU32, min_eq_right htn]
    omega
  refine ⟨fun idx => button_hit_iff_hitSpec row.length idx width height x y
    (le_trans (by norm_num) hN), ?_, ?_⟩
  · intro hmiss
    simp only [stepEvent]
    rw [if_neg hg]
    simp only [hrow]
    rw [← hbtn]
    simp [hmiss]
  · intro hhit
    have hlt : btn < row.length :=
      button_hit_lt row.length btn width height x y hN hW hxW hhit
    obtain ⟨b, hb⟩ : ∃ b, row[btn]? = some b :=
      ⟨_, List.getElem?_eq_getElem hlt⟩
    refine ⟨b, hb, ?_⟩
    simp only [stepEvent]
    rw [if_neg hg]
    simp only [hrow]
    rw [← hbtn]
    rw [if_pos hhit, setActiveAt_some s.layers s.activeLayer btn true row b hrow hb]

theorem down_event_hit_test_characterization_witness :
    (2 ≤ (initLayers.getD 0 []).length ∧ (0 : ℚ) ≤ 100 ∧
      (100 : ℚ) ≤ (2008 : ℚ)) ∧
    ((f64toU32 ((100 : ℚ) / ((2008 : ℚ) / ((initLayers.getD 0 []).length : ℚ))) : ℤ)
      = ⌊(100 : ℚ) / ((2008 : ℚ) / ((initLayers.getD 0 []).length : ℚ))⌋) ∧
    (button_hit (initLayers.getD 0 []).length 0 2008 64 100 32 = true ↔
      hitSpec (initLayers.getD 0 []).length 0 2008 64 100 32) := by
  have h := down_event_hit_test_characterization cfg0 2008 64 1 7 0 100 32 s0
    (initLayers.getD 0 [])
    (f64toU32 ((100 : ℚ) / ((2008 : ℚ) / ((initLayers.getD 0 []).length : ℚ))))
    (by decide) (by decide) (by decide) (by decide) (by decide)
    (by norm_num) (by norm_num) (by norm_num) rfl
  exact ⟨⟨by decide, by norm_num, by norm_num⟩, h.1, h.2.1 0⟩

/-- C10: for a 12-button layer and a transformed down-coordinate within the
drawable width, a passing hit test forces the candidate index below 12 (the
boundary candidate 12 always fails, its left edge lying beyond the width);
consequently, from any structurally sound state, every handler's indexing is
in bounds: processing any event returns a result (never the panic `none`)
and preserves the structural invariant, so stored indices stay valid for the
motion and up handlers that reuse them. -/
theorem handlers_never_panic :
    (∀ (width height : Nat) (x y : ℚ), 0 < width → 0 ≤ x → x ≤ (width : ℚ) →
      (button_hit 12 (f64toU32 (x / ((width : ℚ) / (12 : ℚ)))) width height x y = true →
        f64toU32 (x / ((width : ℚ) / (12 : ℚ))) < 12) ∧
      button_hit 12 12 width height x y = false) ∧
    (∀ (cfg : UiConfig) (width height bl : Nat) (s : SysState) (ev : InEvent),
      0 < width → StateOK s → EventOK width ev →
      ∃ r, stepEvent cfg width height bl s ev = some r ∧ StateOK r.1) := by
  constructor
  · intro width height x y hW hx0 hxW
    constructor
    · intro hhit
      exact button_hit_lt 12 _ width height x y (by norm_num) hW hxW hhit
    · cases hcb : button_hit 12 12 width height x y with
      | false => rfl
      | true =>
        exact absurd (button_hit_lt 12 12 width height x y (by norm_num) hW hxW hcb)
          (by norm_num)
  · intro cfg width height bl s ev hW hok hev
    obtain ⟨hlen, hal, hrows, htch⟩ := hok
    cases ev with
    | deviceAdded dev name =>
      by_cases hc : containsSub name.toList " Touch Bar".toList = true
      · refine ⟨({ s with digitizer := some dev }, []), ?_, hlen, hal, hrows, htch⟩
        simp only [stepEvent]
        rw [if_pos hc]
      · refine ⟨(s, []), ?_, hlen, hal, hrows, htch⟩
        simp only [stepEvent]
        rw [if_neg hc]
    | keyboardKey dev code pressed =>
      by_cases hc : code = KEY_FN
      · by_cases hne : s.activeLayer ≠
            (if pressed then cfg.secondary_layer else cfg.primary_layer).toIdx
        · refine ⟨({ s with
              activeLayer :=
                (if pressed then cfg.secondary_layer else cfg.primary_layer).toIdx,
              needsRedraw := true }, []), ?_, hlen, ?_, hrows, htch⟩
          · simp only [stepEvent]
            rw [if_pos hc, if_pos hne]
          · cases hp : (if pressed then cfg.secondary_layer else cfg.primary_layer) <;>
              simp [hp, LayerType.toIdx]
        · refine ⟨(s, []), ?_, hlen, hal, hrows, htch⟩
          simp only [stepEvent]
          rw [if_pos hc, if_neg hne]
      · refine ⟨(s, []), ?_, hlen, hal, hrows, htch⟩
        simp only [stepEvent]
        rw [if_neg hc]
    | touchDown dev slot x y =>
      have hxr : 0 ≤ x ∧ x ≤ (width : ℚ) := hev
      by_cases hg : some dev ≠ s.digitizer ∨ bl = 0
      · refine ⟨(s, []), ?_, hlen, hal, hrows, htch⟩
        simp only [stepEvent]
        rw [if_pos hg]
      · have hlt : s.activeLayer < s.layers.length := by rw [hlen]; exact hal
        obtain ⟨row, hrow⟩ : ∃ row, s.layers[s.activeLayer]? = some row :=
          ⟨_, List.getElem?_eq_getElem hlt⟩
        have hrl : row.length = 12 := hrows row (List.getElem?_mem hrow)
        by_cases hhit : button_hit row.length
            (f64toU32 (x / ((width : ℚ) / (row.length : ℚ)))) width height x y = true
        · have hbtnlt : f64toU32 (x / ((width : ℚ) / (row.length : ℚ))) < row.length :=
            button_hit_lt row.length _ width height x y (by rw [hrl]; norm_num) hW hxr.2 hhit
          obtain ⟨b, hb⟩ : ∃ b,
              row[f64toU32 (x / ((width : ℚ) / (row.length : ℚ)))]? = some b :=
            ⟨_, List.getElem?_eq_getElem hbtnlt⟩
          refine ⟨({ s with
              touches := mapInsert s.touches slot (s.activeLayer,
                f64toU32 (x / ((width : ℚ) / (row.length : ℚ)))),
              layers := s.layers.set s.activeLayer
                (row.set (f64toU32 (x / ((width : ℚ) / (row.length : ℚ))))
                  (b.set_active true).1) },
            (b.set_active true).2), ?_, ?_, ?_, ?_, ?_⟩
          · simp only [stepEvent]
            rw [if_neg hg]
            simp only [hrow]
            rw [if_pos hhit]
            simp only [setActiveAt_some s.layers s.activeLayer _ true row b hrow hb]
          · simpa using hlen
          · simpa using hal
          · intro row2 hmem2
            rcases List.mem_or_eq_of_mem_set hmem2 with h2 | h2
            · exact hrows row2 h2
            · rw [h2, List.length_set, hrl]
          · intro e hmem2
            rcases mem_mapInsert _ _ _ _ hmem2 with h2 | h2
            · rw [h2]
              exact ⟨hal, by rw [← hrl]; exact hbtnlt⟩
            · exact htch e h2
        · refine ⟨(s, []), ?_, hlen, hal, hrows, htch⟩
          simp only [stepEvent]
          rw [if_neg hg]
          simp only [hrow]
          simp [hhit]
    | touchMotion dev slot x y =>
      by_cases hg : some dev ≠ s.digitizer ∨ bl = 0
      · refine ⟨(s, []), ?_, hlen, hal, hrows, htch⟩
        simp only [stepEvent]
        rw [if_pos hg]
      · cases hlk : mapLookup s.touches slot with
        | none =>
          refine ⟨(s, []), ?_, hlen, hal, hrows, htch⟩
          simp only [stepEvent]
          rw [if_neg hg]
          simp only [hlk]
        | some lb =>
          obtain ⟨li, bi⟩ := lb
          have hb2 := htch _ (mapLookup_mem _ _ _ hlk)
          have hlt : li < s.layers.length := by rw [hlen]; exact hb2.1
          obtain ⟨row, hrow⟩ : ∃ row, s.layers[li]? = some row :=
            ⟨_, List.getElem?_eq_getElem hlt⟩
          have hrl : row.length = 12 := hrows row (List.getElem?_mem hrow)
          have hbl2 : bi < row.length := by rw [hrl]; exact hb2.2
          obtain ⟨b, hb⟩ : ∃ b, row[bi]? = some b :=
            ⟨_, List.getElem?_eq_getElem hbl2⟩
          refine ⟨({ s with
              layers := s.layers.set li
                (row.set bi (b.set_active
                  (button_hit row.length bi width height x y)).1) },
            (b.set_active (button_hit row.length bi width height x y)).2),
            ?_, ?_, ?_, ?_, ?_⟩
          · simp only [stepEvent]
            rw [if_neg hg]
            simp only [hlk, hrow]
            simp only [setActiveAt_some s.layers li bi
              (button_hit row.length bi width height x y) row b hrow hb]
          · simpa using hlen
          · simpa using hal
          · intro row2 hmem2
            rcases List.mem_or_eq_of_mem_set hmem2 with h2 | h2
            · exact hrows row2 h2
            · rw [h2, List.length_set, hrl]
          · intro e hmem2
            exact htch e hmem2
    | touchUp dev slot =>
      by_cases hg : some dev ≠ s.digitizer ∨ bl = 0
      · refine ⟨(s, []), ?_, hlen, hal, hrows, htch⟩
        simp only [stepEvent]
        rw [if_pos hg]
      · cases hlk : mapLookup s.touches slot with
        | none =>
          refine ⟨(s, []), ?_, hlen, hal, hrows, htch⟩
          simp only [stepEvent]
          rw [if_neg hg]
          simp only [hlk]
        | some lb =>
          obtain ⟨li, bi⟩ := lb
          have hb2 := htch _ (mapLookup_mem _ _ _ hlk)
          have hlt : li < s.layers.length := by rw [hlen]; exact hb2.1
          obtain ⟨row, hrow⟩ : ∃ row, s.layers[li]? = some row :=
            ⟨_, List.getElem?_eq_getElem hlt⟩
          have hrl : row.length = 12 := hrows row (List.getElem?_mem hrow)
          have hbl2 : bi < row.length := by rw [hrl]; exact hb2.2
          obtain ⟨b, hb⟩ : ∃ b, row[bi]? = some b :=
            ⟨_, List.getElem?_eq_getElem hbl2⟩
          refine ⟨({ s with
              layers := s.layers.set li
                (row.set bi (b.set_active false).1) },
            (b.set_active false).2), ?_, ?_, ?_, ?_, ?_⟩
          · simp only [stepEvent]
            rw [if_neg hg]
            simp only [hlk, hrow]
            simp only [setActiveAt_some s.layers li bi false row b hrow hb]
          · simpa using hlen
          · simpa using hal
          · intro row2 hmem2
            rcases List.mem_or_eq_of_mem_set hmem2 with h2 | h2
            · exact hrows row2 h2
            · rw [h2, List.length_set, hrl]
          · intro e hmem2
            exact htch e hmem2

theorem handlers_never_panic_witness :
    (0 < 2008 ∧ StateOK s0 ∧ EventOK 2008 (.touchDown 7 0 100 32)) ∧
    (∃ r, stepEvent cfg0 2008 64 1 s0 (.touchDown 7 0 100 32) = some r ∧
      StateOK r.1) := by
  have hok : StateOK s0 := by
    refine ⟨by decide, by decide, ?_, ?_⟩ <;> decide
  have hev : EventOK 2008 (.touchDown 7 0 100 32) := ⟨by norm_num, by norm_num⟩
  exact ⟨⟨by norm_num, hok, hev⟩,
    handlers_never_panic.2 cfg0 2008 64 1 s0 _ (by norm_num) hok hev⟩
